import Mathlib

/-!
# Lockspace: verification of the zero-knowledge vault core

A shallow embedding of the Lockspace repository's cryptographic storage
layer (`src/lib/crypto.ts`, `src/lib/storage.ts`), its in-memory access
session state machine (`src/lib/workspace-context.tsx`), and the
brute-force throttle in the interactive unlock flows
(`WelcomeScreen.tsx`, `PasswordInput.tsx`).

Byte sequences are `List Nat` with entries `< 256` where it matters.
Code of the repository is translated function by function.  External
platform collaborators (the WebCrypto AEAD/PBKDF2/SHA-256 primitives,
`TextEncoder`/`TextDecoder`, `btoa`/`atob`, and the Supabase row store)
are modelled from the specification's contracts; each such definition is
marked in its doc comment.
-/

namespace Lockspace

set_option maxRecDepth 100000

/-- Byte sequences (entries are intended to be `< 256`). -/
abbrev Bytes := List Nat

/-! ## Base64 (the repository's `bytesToBase64` / `base64ToBytes`)

`bytesToBase64` in `crypto.ts` is `btoa(String.fromCharCode(...bytes))`
and `base64ToBytes` is the inverse via `atob`; `btoa`/`atob` implement
standard base64 with `=` padding.  We implement that codec concretely.
-/

/-- The standard base64 alphabet, as used by `btoa`. -/
def base64Alphabet : List Char :=
  "ABCDEFGHIJKLMNOPQRSTUVWXYZabcdefghijklmnopqrstuvwxyz0123456789+/".data

/-- The base64 digit for a 6-bit value. -/
def b64Char (n : Nat) : Char := base64Alphabet.getD n 'A'

/-- The 6-bit value of a base64 digit (as `atob` reads it). -/
def b64Val (c : Char) : Nat := base64Alphabet.indexOf c

/-- Base64-encode a byte list, three bytes to four digits, `=`-padded. -/
def bytesToBase64Chars : Bytes → List Char
  | [] => []
  | [a] => [b64Char (a / 4), b64Char (a % 4 * 16), '=', '=']
  | [a, b] => [b64Char (a / 4), b64Char (a % 4 * 16 + b / 16), b64Char (b % 16 * 4), '=']
  | a :: b :: c :: rest =>
    b64Char (a / 4) :: b64Char (a % 4 * 16 + b / 16) ::
      b64Char (b % 16 * 4 + c / 64) :: b64Char (c % 64) :: bytesToBase64Chars rest

/-- The function `bytesToBase64` from `crypto.ts`: bytes to base64 text. -/
def bytesToBase64 (bytes : Bytes) : String := String.mk (bytesToBase64Chars bytes)

/-- Base64-decode four digits at a time, honouring `=` padding. -/
def base64CharsToBytes : List Char → Bytes
  | c1 :: c2 :: c3 :: c4 :: rest =>
    if c3 = '=' then [b64Val c1 * 4 + b64Val c2 / 16]
    else if c4 = '=' then
      [b64Val c1 * 4 + b64Val c2 / 16, b64Val c2 % 16 * 16 + b64Val c3 / 4]
    else
      (b64Val c1 * 4 + b64Val c2 / 16) :: (b64Val c2 % 16 * 16 + b64Val c3 / 4) ::
        (b64Val c3 % 4 * 64 + b64Val c4) :: base64CharsToBytes rest
  | _ => []

/-- The function `base64ToBytes` from `crypto.ts`: base64 text back to bytes. -/
def base64ToBytes (s : String) : Bytes := base64CharsToBytes s.data

/-! ## UTF-8 (the platform `TextEncoder` / `TextDecoder`)

Modelled from the spec: `stringToBytes` / `bytesToString` in `crypto.ts`
delegate to the browser's `TextEncoder`/`TextDecoder`, i.e. standard
UTF-8; the spec (§4.1) requires the binary↔text codecs to round-trip
exactly.  We implement standard UTF-8 over code points.
-/

/-- UTF-8 encoding of a single code point. -/
def utf8EncodeChar (c : Nat) : Bytes :=
  if c < 0x80 then [c]
  else if c < 0x800 then [0xC0 + c / 64, 0x80 + c % 64]
  else if c < 0x10000 then
    [0xE0 + c / 4096, 0x80 + c / 64 % 64, 0x80 + c % 64]
  else
    [0xF0 + c / 262144, 0x80 + c / 4096 % 64, 0x80 + c / 64 % 64, 0x80 + c % 64]

/-- The function `stringToBytes` from `crypto.ts` (TextEncoder): UTF-8 encode. -/
def stringToBytes (s : String) : Bytes :=
  (s.data.map (fun ch => utf8EncodeChar ch.toNat)).flatten

/-- UTF-8 decoding to a code-point list, fuelled for structural recursion
(one unit of fuel per decoded code point); `none` on malformed input. -/
def utf8DecodeAux : Nat → Bytes → Option (List Nat)
  | _, [] => some []
  | 0, _ :: _ => none
  | fuel + 1, b :: rest =>
    if b < 0x80 then (utf8DecodeAux fuel rest).map (b :: ·)
    else if b < 0xE0 then
      match rest with
      | b1 :: rest1 => (utf8DecodeAux fuel rest1).map (((b - 0xC0) * 64 + (b1 - 0x80)) :: ·)
      | [] => none
    else if b < 0xF0 then
      match rest with
      | b1 :: b2 :: rest2 =>
        (utf8DecodeAux fuel rest2).map
          (((b - 0xE0) * 4096 + (b1 - 0x80) * 64 + (b2 - 0x80)) :: ·)
      | _ => none
    else
      match rest with
      | b1 :: b2 :: b3 :: rest3 =>
        (utf8DecodeAux fuel rest3).map
          (((b - 0xF0) * 262144 + (b1 - 0x80) * 4096 + (b2 - 0x80) * 64 + (b3 - 0x80)) :: ·)
      | _ => none

/-- UTF-8 decoding to a code-point list; `none` on malformed input.
The byte count is always enough fuel, since each code point takes a byte. -/
def utf8Decode (b : Bytes) : Option (List Nat) := utf8DecodeAux b.length b

/-- The function `bytesToString` from `crypto.ts` (TextDecoder): UTF-8 decode. -/
def bytesToString (b : Bytes) : String :=
  match utf8Decode b with
  | some cps => String.mk (cps.map Char.ofNat)
  | none => ""

/-! ### Round-trip facts about the codecs -/

theorem base64Alphabet_length : base64Alphabet.length = 64 := by decide

theorem b64Char_ne_pad (v : Nat) : b64Char v ≠ '=' := by
  rcases Nat.lt_or_ge v 64 with h | h
  · have h64 : ∀ w : Fin 64, b64Char w.val ≠ '=' := by decide
    exact h64 ⟨v, h⟩
  · unfold b64Char
    rw [List.getD_eq_default]
    · decide
    · show 64 ≤ v; omega

theorem b64Val_b64Char {v : Nat} (h : v < 64) : b64Val (b64Char v) = v := by
  have h64 : ∀ w : Fin 64, b64Val (b64Char w.val) = w.val := by decide
  exact h64 ⟨v, h⟩

/-- The function `base64ToBytes` undoes `bytesToBase64` on genuine byte lists. -/
theorem base64_chars_roundtrip :
    ∀ l : Bytes, (∀ b ∈ l, b < 256) → base64CharsToBytes (bytesToBase64Chars l) = l
  | [], _ => rfl
  | [a], h => by
    have ha : a < 256 := h a (by simp)
    show base64CharsToBytes [b64Char (a / 4), b64Char (a % 4 * 16), '=', '='] = [a]
    rw [base64CharsToBytes.eq_def]
    dsimp only
    rw [if_pos rfl]
    rw [b64Val_b64Char (by omega), b64Val_b64Char (by omega)]
    simp only [List.cons.injEq, and_true]
    omega
  | [a, b], h => by
    have ha : a < 256 := h a (by simp)
    have hb : b < 256 := h b (by simp)
    show base64CharsToBytes
        [b64Char (a / 4), b64Char (a % 4 * 16 + b / 16), b64Char (b % 16 * 4), '='] = [a, b]
    rw [base64CharsToBytes.eq_def]
    dsimp only
    rw [if_neg (b64Char_ne_pad _), if_pos rfl]
    rw [b64Val_b64Char (by omega), b64Val_b64Char (by omega), b64Val_b64Char (by omega)]
    simp only [List.cons.injEq, and_true]
    omega
  | a :: b :: c :: rest, h => by
    have ha : a < 256 := h a (by simp)
    have hb : b < 256 := h b (by simp)
    have hc : c < 256 := h c (by simp)
    have ih := base64_chars_roundtrip rest (fun x hx => h x (by simp [hx]))
    show base64CharsToBytes (b64Char (a / 4) :: b64Char (a % 4 * 16 + b / 16) ::
        b64Char (b % 16 * 4 + c / 64) :: b64Char (c % 64) :: bytesToBase64Chars rest)
      = a :: b :: c :: rest
    rw [base64CharsToBytes.eq_def]
    dsimp only
    rw [if_neg (b64Char_ne_pad _), if_neg (b64Char_ne_pad _)]
    rw [b64Val_b64Char (by omega), b64Val_b64Char (by omega),
        b64Val_b64Char (by omega), b64Val_b64Char (by omega), ih]
    simp only [List.cons.injEq, and_true]
    refine ⟨by omega, by omega, by omega⟩

theorem base64_roundtrip (l : Bytes) (h : ∀ b ∈ l, b < 256) :
    base64ToBytes (bytesToBase64 l) = l := by
  unfold base64ToBytes bytesToBase64
  exact base64_chars_roundtrip l h

/-- Unicode scalar values are below `0x110000`. -/
theorem char_toNat_lt (c : Char) : c.toNat < 1114112 := by
  show c.val.toNat < 1114112
  rcases c.valid with h | ⟨_, h⟩ <;> omega

/-- UTF-8 encoded bytes are bytes. -/
theorem utf8EncodeChar_lt (n : Nat) (hn : n < 1114112) :
    ∀ b ∈ utf8EncodeChar n, b < 256 := by
  unfold utf8EncodeChar
  by_cases h1 : n < 128
  · rw [if_pos h1]; intro b hb; simp at hb; omega
  · rw [if_neg h1]
    by_cases h2 : n < 2048
    · rw [if_pos h2]; intro b hb; simp at hb
      rcases hb with h | h <;> omega
    · rw [if_neg h2]
      by_cases h3 : n < 65536
      · rw [if_pos h3]; intro b hb; simp at hb
        rcases hb with h | h | h <;> omega
      · rw [if_neg h3]; intro b hb; simp at hb
        rcases hb with h | h | h | h <;> omega

/-- Each encoded scalar value takes between one and four bytes. -/
theorem utf8EncodeChar_length (n : Nat) :
    1 ≤ (utf8EncodeChar n).length ∧ (utf8EncodeChar n).length ≤ 4 := by
  unfold utf8EncodeChar
  by_cases h1 : n < 128
  · rw [if_pos h1]; exact ⟨by simp, by simp⟩
  · rw [if_neg h1]
    by_cases h2 : n < 2048
    · rw [if_pos h2]; exact ⟨by simp, by simp⟩
    · rw [if_neg h2]
      by_cases h3 : n < 65536
      · rw [if_pos h3]; exact ⟨by simp, by simp⟩
      · rw [if_neg h3]; exact ⟨by simp, by simp⟩

/-- Decoding a UTF-8 encoded scalar value at the head of a byte stream
consumes exactly one unit of fuel. -/
theorem utf8DecodeAux_encodeChar (fuel n : Nat) (hn : n < 1114112) (rest : Bytes) :
    utf8DecodeAux (fuel + 1) (utf8EncodeChar n ++ rest)
      = (utf8DecodeAux fuel rest).map (n :: ·) := by
  unfold utf8EncodeChar
  by_cases h1 : n < 128
  · rw [if_pos h1]
    show utf8DecodeAux (fuel + 1) (n :: rest) = _
    rw [utf8DecodeAux.eq_def]
    dsimp only
    rw [if_pos h1]
  · rw [if_neg h1]
    by_cases h2 : n < 2048
    · rw [if_pos h2]
      show utf8DecodeAux (fuel + 1) ((192 + n / 64) :: (128 + n % 64) :: rest) = _
      rw [utf8DecodeAux.eq_def]
      dsimp only
      rw [if_neg (by omega), if_pos (by omega)]
      have hv : (192 + n / 64 - 192) * 64 + (128 + n % 64 - 128) = n := by omega
      rw [hv]
    · rw [if_neg h2]
      by_cases h3 : n < 65536
      · rw [if_pos h3]
        show utf8DecodeAux (fuel + 1)
            ((224 + n / 4096) :: (128 + n / 64 % 64) :: (128 + n % 64) :: rest) = _
        rw [utf8DecodeAux.eq_def]
        dsimp only
        rw [if_neg (by omega), if_neg (by omega), if_pos (by omega)]
        have hv : (224 + n / 4096 - 224) * 4096 + (128 + n / 64 % 64 - 128) * 64 +
            (128 + n % 64 - 128) = n := by omega
        rw [hv]
      · rw [if_neg h3]
        show utf8DecodeAux (fuel + 1) ((240 + n / 262144) :: (128 + n / 4096 % 64) ::
            (128 + n / 64 % 64) :: (128 + n % 64) :: rest) = _
        rw [utf8DecodeAux.eq_def]
        dsimp only
        rw [if_neg (by omega), if_neg (by omega), if_neg (by omega)]
        have hv : (240 + n / 262144 - 240) * 262144 + (128 + n / 4096 % 64 - 128) * 4096 +
            (128 + n / 64 % 64 - 128) * 64 + (128 + n % 64 - 128) = n := by omega
        rw [hv]

/-- Decoding an encoded character list succeeds under any sufficient fuel. -/
theorem utf8DecodeAux_stringToBytes (cs : List Char) :
    ∀ fuel : Nat, ((cs.map (fun ch => utf8EncodeChar ch.toNat)).flatten).length ≤ fuel →
      utf8DecodeAux fuel ((cs.map (fun ch => utf8EncodeChar ch.toNat)).flatten)
        = some (cs.map Char.toNat) := by
  induction cs with
  | nil =>
    intro fuel _
    cases fuel <;> rfl
  | cons c cs ih =>
    intro fuel hfuel
    simp only [List.map_cons, List.flatten_cons] at hfuel ⊢
    have hlen := utf8EncodeChar_length c.toNat
    rw [List.length_append] at hfuel
    cases fuel with
    | zero => omega
    | succ f =>
      rw [utf8DecodeAux_encodeChar f c.toNat (char_toNat_lt c)]
      rw [ih f (by omega)]
      rfl

theorem utf8Decode_stringToBytes (cs : List Char) :
    utf8Decode ((cs.map (fun ch => utf8EncodeChar ch.toNat)).flatten)
      = some (cs.map Char.toNat) :=
  utf8DecodeAux_stringToBytes cs _ (Nat.le_refl _)

/-- The function `bytesToString` undoes `stringToBytes`: the repository's text codec
round-trips exactly, as §4.1 requires. -/
theorem utf8_roundtrip (s : String) : bytesToString (stringToBytes s) = s := by
  unfold bytesToString stringToBytes
  rw [utf8Decode_stringToBytes]
  simp only [List.map_map]
  show String.mk (s.data.map (fun c => Char.ofNat c.toNat)) = s
  simp only [Char.ofNat_toNat, List.map_id_fun', id]

/-- The function `stringToBytes` produces genuine bytes. -/
theorem stringToBytes_lt (s : String) : ∀ b ∈ stringToBytes s, b < 256 := by
  unfold stringToBytes
  intro b hb
  rw [List.mem_flatten] at hb
  obtain ⟨l, hl, hbl⟩ := hb
  rw [List.mem_map] at hl
  obtain ⟨c, _, rfl⟩ := hl
  exact utf8EncodeChar_lt c.toNat (char_toNat_lt c) b hbl

/-! ## SHA-256 (the platform `crypto.subtle.digest`)

Modelled from the spec: `sha256Hash` in `crypto.ts` delegates to the
browser's `crypto.subtle.digest('SHA-256', ·)`; the spec (§4.1) requires
a pure, deterministic 32-byte SHA-256-class digest.  We implement
FIPS 180-4 SHA-256 over `Nat` words reduced mod `2^32`.
-/

/-- Truncate to a 32-bit word. -/
def w32 (n : Nat) : Nat := n % 4294967296

/-- Right rotation of a 32-bit word by `k` bits. -/
def rotr32 (k n : Nat) : Nat := w32 (n / 2 ^ k + n % 2 ^ k * 2 ^ (32 - k))

/-- The SHA-256 round constants (FIPS 180-4 §4.2.2, in decimal). -/
def sha256K : List Nat :=
  [1116352408, 1899447441, 3049323471, 3921009573, 961987163,
   1508970993, 2453635748, 2870763221, 3624381080, 310598401,
   607225278, 1426881987, 1925078388, 2162078206, 2614888103,
   3248222580, 3835390401, 4022224774, 264347078, 604807628,
   770255983, 1249150122, 1555081692, 1996064986, 2554220882,
   2821834349, 2952996808, 3210313671, 3336571891, 3584528711,
   113926993, 338241895, 666307205, 773529912, 1294757372,
   1396182291, 1695183700, 1986661051, 2177026350, 2456956037,
   2730485921, 2820302411, 3259730800, 3345764771, 3516065817,
   3600352804, 4094571909, 275423344, 430227734, 506948616,
   659060556, 883997877, 958139571, 1322822218, 1537002063,
   1747873779, 1955562222, 2024104815, 2227730452, 2361852424,
   2428436474, 2756734187, 3204031479, 3329325298]

/-- The SHA-256 initial hash value (FIPS 180-4 §5.3.3, in decimal). -/
def sha256H0 : List Nat :=
  [1779033703, 3144134277, 1013904242, 2773480762,
   1359893119, 2600822924, 528734635, 1541459225]

/-- Big-endian encoding of a natural number on `k` bytes. -/
def natToBytesBE : Nat → Nat → Bytes
  | 0, _ => []
  | k + 1, n => natToBytesBE k (n / 256) ++ [n % 256]

/-- Group bytes into 32-bit big-endian words. -/
def bytesToWords : Bytes → List Nat
  | b0 :: b1 :: b2 :: b3 :: rest =>
    (((b0 * 256 + b1) * 256 + b2) * 256 + b3) :: bytesToWords rest
  | _ => []

/-- Iterate a function `k` times. -/
def iterN : Nat → (α → α) → α → α
  | 0, _, a => a
  | k + 1, f, a => iterN k f (f a)

/-- One step of the SHA-256 message-schedule extension. -/
def sha256ExtendStep (ws : List Nat) : List Nat :=
  let w2 := ws.getD (ws.length - 2) 0
  let w7 := ws.getD (ws.length - 7) 0
  let w15 := ws.getD (ws.length - 15) 0
  let w16 := ws.getD (ws.length - 16) 0
  let s0 := (rotr32 7 w15) ^^^ (rotr32 18 w15) ^^^ (w15 / 2 ^ 3)
  let s1 := (rotr32 17 w2) ^^^ (rotr32 19 w2) ^^^ (w2 / 2 ^ 10)
  ws ++ [w32 (w16 + s0 + w7 + s1)]

/-- Extend sixteen message words to the sixty-four-word schedule. -/
def sha256Schedule (ws : List Nat) : List Nat := iterN 48 sha256ExtendStep ws

/-- One SHA-256 compression round on the eight-word working state. -/
def sha256Round (st : List Nat) (k w : Nat) : List Nat :=
  match st with
  | [a, b, c, d, e, f, g, h] =>
    let s1 := (rotr32 6 e) ^^^ (rotr32 11 e) ^^^ (rotr32 25 e)
    let ch := (e &&& f) ^^^ ((e ^^^ 4294967295) &&& g)
    let temp1 := w32 (h + s1 + ch + k + w)
    let s0 := (rotr32 2 a) ^^^ (rotr32 13 a) ^^^ (rotr32 22 a)
    let maj := (a &&& b) ^^^ (a &&& c) ^^^ (b &&& c)
    let temp2 := w32 (s0 + maj)
    [w32 (temp1 + temp2), a, b, c, w32 (d + temp1), e, f, g]
  | st => st

/-- Compress one 64-byte block into the running hash state. -/
def sha256Compress (h : List Nat) (block : Bytes) : List Nat :=
  let ws := sha256Schedule (bytesToWords block)
  let st := (sha256K.zip ws).foldl (fun st kw => sha256Round st kw.1 kw.2) h
  List.zipWith (fun x y => w32 (x + y)) h st

/-- Process `k` 64-byte blocks. -/
def sha256Loop : Nat → List Nat → Bytes → List Nat
  | 0, h, _ => h
  | k + 1, h, msg => sha256Loop k (sha256Compress h (msg.take 64)) (msg.drop 64)

/-- FIPS 180-4 SHA-256 digest of a byte sequence (the model of
`crypto.subtle.digest('SHA-256', ·)` behind `sha256Hash` in `crypto.ts`). -/
def sha256Hash (data : Bytes) : Bytes :=
  let len := data.length
  let padded :=
    data ++ 128 :: List.replicate ((120 - (len + 1) % 64) % 64) 0 ++ natToBytesBE 8 (len * 8)
  ((sha256Loop (padded.length / 64) sha256H0 padded).map (natToBytesBE 4)).flatten

/-! ## Keys and authenticated encryption

Modelled from the spec: the WebCrypto `CryptoKey` handle and the
AES-256-GCM / PBKDF2 primitives of `crypto.subtle` are platform
collaborators.  Per §4.1 the AEAD appends an authentication tag to the
ciphertext and decryption fails (`AuthenticationError`) exactly when the
tag does not verify under the supplied key and nonce; we realise this as
an ideal AEAD whose tag binds the key and the nonce.
-/

/-- An abstract symmetric-key handle (the model of `CryptoKey`): either
derived from a password and salt (PBKDF2, deterministic in both), or a
random AES-256 key with the given raw bytes. -/
inductive Key where
  | derived (password : String) (salt : Bytes)
  | random (raw : Bytes)
deriving DecidableEq, Repr

/-- Modelled from the spec: `deriveKeyFromPassword` in `crypto.ts`
(PBKDF2-SHA256, 600000 iterations) — an abstract key handle that is a
deterministic function of password and salt. -/
def deriveKeyFromPassword (password : String) (salt : Bytes) : Key :=
  .derived password salt

/-- The function `generateFileKey` from `crypto.ts`: a fresh random AES-256 key; the
entropy drawn from the secure random source is passed explicitly. -/
def generateFileKey (entropy : Bytes) : Key := .random (entropy.map (· % 256))

/-- Modelled from the spec: `crypto.subtle.exportKey('raw', ·)` — the raw
byte material of a key handle. -/
def exportKey : Key → Bytes
  | .random raw => raw
  | .derived pw salt => stringToBytes pw ++ salt.map (· % 256)

/-- Modelled from the spec: `importKey` in `crypto.ts` — raw bytes back
into an AES-GCM key handle. -/
def importKey (raw : Bytes) : Key := .random raw

/-- The authentication tag of the ideal AEAD: binds the key; together
with the nonce it is appended to the ciphertext. -/
def keyTag : Key → Bytes
  | .derived pw salt => 0 :: (stringToBytes pw ++ salt.map (· % 256))
  | .random raw => 1 :: raw.map (· % 256)

/-- Modelled from the spec: `crypto.subtle.encrypt` with AES-GCM — the
plaintext followed by the authentication tag (key binding ++ nonce). -/
def subtleEncrypt (plaintext : Bytes) (key : Key) (iv : Bytes) : Bytes :=
  plaintext ++ (keyTag key ++ iv.map (· % 256))

/-- Modelled from the spec: `crypto.subtle.decrypt` with AES-GCM —
verifies the appended tag against the supplied key and nonce and strips
it; `none` models the thrown `AuthenticationError`. -/
def subtleDecrypt (ciphertext : Bytes) (key : Key) (iv : Bytes) : Option Bytes :=
  let tag := keyTag key ++ iv.map (· % 256)
  if tag.isSuffixOf ciphertext then
    some (ciphertext.take (ciphertext.length - tag.length))
  else none

/-! ## The repository's crypto layer (`crypto.ts`) -/

/-- The `{iv, ciphertext}` result of `encrypt` (raw bytes). -/
structure IvCipher where
  iv : Bytes
  ciphertext : Bytes
deriving DecidableEq, Repr

/-- The function `encrypt` from `crypto.ts`: AES-256-GCM under a fresh IV; the
12 bytes drawn by `generateIV()` are the `ivEntropy` argument. -/
def encrypt (plaintext : Bytes) (key : Key) (ivEntropy : Bytes) : IvCipher :=
  { iv := ivEntropy, ciphertext := subtleEncrypt plaintext key ivEntropy }

/-- The function `decrypt` from `crypto.ts`: AES-256-GCM decryption; `none` models
the exception thrown on wrong key, wrong IV or tampered data. -/
def decrypt (ciphertext : Bytes) (key : Key) (iv : Bytes) : Option Bytes :=
  subtleDecrypt ciphertext key iv

/-- The `{iv, ciphertext}` result of `encryptString` (base64 text). -/
structure EncString where
  iv : String
  ciphertext : String
deriving DecidableEq, Repr

/-- The function `encryptString` from `crypto.ts`. -/
def encryptString (plaintext : String) (key : Key) (ivEntropy : Bytes) : EncString :=
  let r := encrypt (stringToBytes plaintext) key ivEntropy
  { iv := bytesToBase64 r.iv, ciphertext := bytesToBase64 r.ciphertext }

/-- The function `decryptString` from `crypto.ts`. -/
def decryptString (ciphertext : String) (key : Key) (iv : String) : Option String :=
  (decrypt (base64ToBytes ciphertext) key (base64ToBytes iv)).map bytesToString

/-- The `{iv, wrappedKey}` result of `wrapKey` (base64 text). -/
structure WrappedKey where
  iv : String
  wrappedKey : String
deriving DecidableEq, Repr

/-- The function `wrapKey` from `crypto.ts`: encrypt the raw material of a file key
under the folder key (`crypto.subtle.wrapKey 'raw'`). -/
def wrapKey (keyToWrap wrappingKey : Key) (ivEntropy : Bytes) : WrappedKey :=
  { iv := bytesToBase64 ivEntropy,
    wrappedKey := bytesToBase64 (subtleEncrypt (exportKey keyToWrap) wrappingKey ivEntropy) }

/-- The function `unwrapKey` from `crypto.ts`: decrypt wrapped key material and import
it directly as a key handle; `none` models the thrown error. -/
def unwrapKey (wrappedKey : String) (unwrappingKey : Key) (iv : String) : Option Key :=
  (subtleDecrypt (base64ToBytes wrappedKey) unwrappingKey (base64ToBytes iv)).map importKey

/-- The stored content of an encrypted file, as produced by `encryptFile`. -/
structure EncFileContent where
  iv : String
  ciphertext : String
  wrappedKey : String
  keyIv : String
deriving DecidableEq, Repr

/-- The function `encryptFile` from `crypto.ts`: generate a one-time file key, encrypt
the contents under it, wrap the file key under the folder key.  The three
entropy arguments are the random draws of `generateFileKey`, the content
IV and the wrapping IV. -/
def encryptFile (fileData : Bytes) (folderKey : Key)
    (keyEntropy ivEntropy keyIvEntropy : Bytes) : EncFileContent :=
  let fileKey := generateFileKey keyEntropy
  let r := encrypt fileData fileKey ivEntropy
  let w := wrapKey fileKey folderKey keyIvEntropy
  { iv := bytesToBase64 r.iv
    ciphertext := bytesToBase64 r.ciphertext
    wrappedKey := w.wrappedKey
    keyIv := w.iv }

/-- The function `decryptFile` from `crypto.ts`: unwrap the file key with the folder
key, then decrypt the contents with the file key. -/
def decryptFile (ciphertext iv wrappedKey keyIv : String) (folderKey : Key) : Option Bytes :=
  match unwrapKey wrappedKey folderKey keyIv with
  | none => none
  | some fileKey => decrypt (base64ToBytes ciphertext) fileKey (base64ToBytes iv)

/-- The function `createWorkspaceId` from `crypto.ts`: base64 of the double SHA-256
of the UTF-8 encoded password. -/
def createWorkspaceId (password : String) : String :=
  bytesToBase64 (sha256Hash (sha256Hash (stringToBytes password)))

/-- The function `validatePasswordStrength` from `crypto.ts`: at least 12 characters,
one uppercase, one lowercase, one digit, one special character. -/
def validatePasswordStrength (password : String) : Bool :=
  password.length ≥ 12 &&
  password.data.any (fun c => 'A' ≤ c && c ≤ 'Z') &&
  password.data.any (fun c => 'a' ≤ c && c ≤ 'z') &&
  password.data.any (fun c => '0' ≤ c && c ≤ '9') &&
  password.data.any (fun c =>
    !(('A' ≤ c && c ≤ 'Z') || ('a' ≤ c && c ≤ 'z') || ('0' ≤ c && c ≤ '9')))

/-! ### Round-trip facts about the crypto layer -/

theorem keyTag_lt (k : Key) : ∀ b ∈ keyTag k, b < 256 := by
  cases k with
  | derived pw salt =>
    intro b hb
    simp only [keyTag, List.mem_cons, List.mem_append, List.mem_map] at hb
    rcases hb with rfl | hb | ⟨x, _, rfl⟩
    · omega
    · exact stringToBytes_lt pw b hb
    · omega
  | random raw =>
    intro b hb
    simp only [keyTag, List.mem_cons, List.mem_map] at hb
    rcases hb with rfl | ⟨x, _, rfl⟩
    · omega
    · omega

theorem subtleEncrypt_lt (p : Bytes) (hp : ∀ b ∈ p, b < 256) (k : Key) (iv : Bytes) :
    ∀ b ∈ subtleEncrypt p k iv, b < 256 := by
  intro b hb
  simp only [subtleEncrypt, List.mem_append, List.mem_map] at hb
  rcases hb with hb | hb | ⟨x, _, rfl⟩
  · exact hp b hb
  · exact keyTag_lt k b hb
  · omega

/-- The ideal AEAD round-trips under the same key and nonce. -/
theorem subtleDecrypt_subtleEncrypt (p : Bytes) (k : Key) (iv : Bytes) :
    subtleDecrypt (subtleEncrypt p k iv) k iv = some p := by
  unfold subtleEncrypt subtleDecrypt
  rw [if_pos]
  · congr 1
    rw [List.length_append, Nat.add_sub_cancel]
    exact List.take_left p _
  · rw [List.isSuffixOf_iff_suffix]
    exact List.suffix_append _ _

/-- The function `decryptString` undoes `encryptString` under the same key. -/
theorem decryptString_encryptString (s : String) (k : Key) (iv : Bytes)
    (hiv : ∀ b ∈ iv, b < 256) :
    decryptString (encryptString s k iv).ciphertext k (encryptString s k iv).iv = some s := by
  unfold encryptString decryptString encrypt decrypt
  dsimp only
  rw [base64_roundtrip _ (subtleEncrypt_lt _ (stringToBytes_lt s) _ _),
      base64_roundtrip _ hiv, subtleDecrypt_subtleEncrypt]
  simp only [Option.map_some']
  rw [utf8_roundtrip]

/-- The function `unwrapKey` undoes `wrapKey` under the same wrapping key: the file
key handle survives the wrap/unwrap cycle. -/
theorem unwrapKey_wrapKey (keyEntropy : Bytes) (folderKey : Key) (iv : Bytes)
    (hiv : ∀ b ∈ iv, b < 256) :
    unwrapKey (wrapKey (generateFileKey keyEntropy) folderKey iv).wrappedKey folderKey
        (wrapKey (generateFileKey keyEntropy) folderKey iv).iv
      = some (generateFileKey keyEntropy) := by
  unfold wrapKey unwrapKey
  dsimp only
  have hexp : ∀ b ∈ exportKey (generateFileKey keyEntropy), b < 256 := by
    intro b hb
    simp only [exportKey, generateFileKey, List.mem_map] at hb
    obtain ⟨x, _, rfl⟩ := hb
    omega
  rw [base64_roundtrip _ (subtleEncrypt_lt _ hexp _ _), base64_roundtrip _ hiv,
      subtleDecrypt_subtleEncrypt]
  rfl

/-! ## The encrypted-entity repository (`storage.ts`)

Modelled from the spec: the Supabase backing store is an external
transactional row store (§6); we model each table as a list of rows,
`.select().eq('id', id).single()` as the first row with the matching id,
and `.insert` as an append that fails on a primary-key conflict (the
`id TEXT PRIMARY KEY` columns of the migration).
-/

/-- A row of the `encrypted_workspaces` table. -/
structure WorkspaceRow where
  id : String
  salt : String
  metadata_iv : String
  metadata_ciphertext : String
  created_at : Nat
deriving DecidableEq, Repr

/-- A row of the `encrypted_folders` table. -/
structure FolderRow where
  id : String
  workspace_id : String
  salt : String
  metadata_iv : String
  metadata_ciphertext : String
  created_at : Nat
deriving DecidableEq, Repr

/-- A row of the `encrypted_files` table. -/
structure FileRow where
  id : String
  folder_id : String
  metadata_iv : String
  metadata_ciphertext : String
  content_iv : String
  content_ciphertext : String
  content_wrapped_key : String
  content_key_iv : String
  size : Nat
  mime_type : String
  created_at : Nat
deriving DecidableEq, Repr

/-- The `EncryptedWorkspace` interface of `storage.ts`. -/
structure EncryptedWorkspace where
  id : String
  salt : String
  metadata : EncString
  createdAt : Nat
deriving DecidableEq, Repr

/-- The `EncryptedFolder` interface of `storage.ts`. -/
structure EncryptedFolder where
  id : String
  workspaceId : String
  salt : String
  metadata : EncString
  createdAt : Nat
deriving DecidableEq, Repr

/-- The `EncryptedFile` interface of `storage.ts`. -/
structure EncryptedFile where
  id : String
  folderId : String
  metadata : EncString
  content : EncFileContent
  size : Nat
  mimeType : String
  createdAt : Nat
deriving DecidableEq, Repr

/-- Point lookup: `.select('*').eq('id', id).single()`. -/
def findWorkspaceRow (db : List WorkspaceRow) (id : String) : Option WorkspaceRow :=
  db.find? (fun r => r.id == id)

/-- Point lookup on the folders table. -/
def findFolderRow (db : List FolderRow) (id : String) : Option FolderRow :=
  db.find? (fun r => r.id == id)

/-- Point lookup on the files table. -/
def findFileRow (db : List FileRow) (id : String) : Option FileRow :=
  db.find? (fun r => r.id == id)

/-- Insert into `encrypted_workspaces`; errors on a primary-key conflict. -/
def insertWorkspaceRow (db : List WorkspaceRow) (row : WorkspaceRow) :
    Except Unit (List WorkspaceRow) :=
  if db.any (fun r => r.id == row.id) then .error () else .ok (db ++ [row])

/-- Insert into `encrypted_files`; errors on a primary-key conflict. -/
def insertFileRow (db : List FileRow) (row : FileRow) : Except Unit (List FileRow) :=
  if db.any (fun r => r.id == row.id) then .error () else .ok (db ++ [row])

/-- The function `unlockWorkspace` from `storage.ts` (lines 111-150): derive the id
from the password, fetch the row, derive the key from the stored salt
and decrypt the metadata; `null` both when no row exists and when
decryption fails (the `catch` arm: wrong password or corrupted data). -/
def unlockWorkspace (db : List WorkspaceRow) (password : String) :
    Option (EncryptedWorkspace × Key × String) :=
  match findWorkspaceRow db (createWorkspaceId password) with
  | none => none
  | some data =>
    let workspace : EncryptedWorkspace :=
      { id := data.id
        salt := data.salt
        metadata := { iv := data.metadata_iv, ciphertext := data.metadata_ciphertext }
        createdAt := data.created_at }
    let salt := base64ToBytes workspace.salt
    let key := deriveKeyFromPassword password salt
    match decryptString workspace.metadata.ciphertext key workspace.metadata.iv with
    | none => none
    | some name => some (workspace, key, name)

/-- The function `unlockFolder` from `storage.ts` (lines 234-272): fetch the folder
row by id, derive the key from the stored salt and the folder password,
decrypt the name; `null` both on a missing row and on failed decryption. -/
def unlockFolder (db : List FolderRow) (folderId : String) (password : String) :
    Option (EncryptedFolder × Key × String) :=
  match findFolderRow db folderId with
  | none => none
  | some data =>
    let folder : EncryptedFolder :=
      { id := data.id
        workspaceId := data.workspace_id
        salt := data.salt
        metadata := { iv := data.metadata_iv, ciphertext := data.metadata_ciphertext }
        createdAt := data.created_at }
    let salt := base64ToBytes folder.salt
    let key := deriveKeyFromPassword password salt
    match decryptString folder.metadata.ciphertext key folder.metadata.iv with
    | none => none
    | some name => some (folder, key, name)

/-- The function `unlockWorkspace` from the repository's alternate storage module
(`src/unnamed/part_003`, lines 77-105): same lookup, but there is no
`try`/`catch` around `decryptString`, so a decryption failure propagates
as a thrown exception (`Except.error ()`) instead of returning `null`;
only the missing-row case returns `null` (`Except.ok none`). -/
def unlockWorkspaceAlt (db : List WorkspaceRow) (password : String) :
    Except Unit (Option (EncryptedWorkspace × Key × String)) :=
  match findWorkspaceRow db (createWorkspaceId password) with
  | none => .ok none
  | some data =>
    let salt := base64ToBytes data.salt
    let key := deriveKeyFromPassword password salt
    match decryptString data.metadata_ciphertext key data.metadata_iv with
    | none => .error ()
    | some name =>
      .ok (some
        ({ id := data.id
           salt := data.salt
           metadata := { iv := data.metadata_iv, ciphertext := data.metadata_ciphertext }
           createdAt := data.created_at }, key, name))

/-- The function `workspaceExists` from `storage.ts` (lines 155-165): only computes
the cheap double-hash identifier and looks the row up — no PBKDF2. -/
def workspaceExists (db : List WorkspaceRow) (password : String) : Bool :=
  (findWorkspaceRow db (createWorkspaceId password)).isSome

/-- The function `createWorkspace` from `storage.ts` (lines 67-106): derive id, draw
a salt, derive the key (one PBKDF2 run), encrypt the name, insert the
row.  `saltEntropy` and `ivEntropy` are the random draws. -/
def createWorkspace (db : List WorkspaceRow) (password name : String)
    (saltEntropy ivEntropy : Bytes) (now : Nat) :
    Except Unit (List WorkspaceRow × EncryptedWorkspace × Key) :=
  let id := createWorkspaceId password
  let key := deriveKeyFromPassword password saltEntropy
  let metadata := encryptString name key ivEntropy
  let workspace : EncryptedWorkspace :=
    { id := id, salt := bytesToBase64 saltEntropy, metadata := metadata, createdAt := now }
  match insertWorkspaceRow db
      { id := workspace.id
        salt := workspace.salt
        metadata_iv := workspace.metadata.iv
        metadata_ciphertext := workspace.metadata.ciphertext
        created_at := workspace.createdAt } with
  | .error _ => .error ()
  | .ok db' => .ok (db', workspace, key)

/-- A browser `File` object as `uploadFile` consumes it: name, contents
(`arrayBuffer()`), byte size and browser-reported MIME type. -/
structure JsFile where
  name : String
  data : Bytes
  size : Nat
  type : String
deriving DecidableEq, Repr

/-- The function `uploadFile` from `storage.ts` (lines 292-339): encrypt the filename
and the contents, then insert the row.  `idEntropy` is the
`crypto.randomUUID()` draw and the `Bytes` arguments the random draws of
the encryption calls.  The stored MIME type is
`file.type || 'application/octet-stream'`. -/
def uploadFile (db : List FileRow) (folderId : String) (folderKey : Key) (file : JsFile)
    (idEntropy : String) (metaIvEntropy keyEntropy ivEntropy keyIvEntropy : Bytes)
    (now : Nat) : Except Unit (List FileRow × EncryptedFile) :=
  let metadata := encryptString file.name folderKey metaIvEntropy
  let content := encryptFile file.data folderKey keyEntropy ivEntropy keyIvEntropy
  let encryptedFile : EncryptedFile :=
    { id := idEntropy
      folderId := folderId
      metadata := metadata
      content := content
      size := file.size
      mimeType := if file.type = "" then "application/octet-stream" else file.type
      createdAt := now }
  match insertFileRow db
      { id := encryptedFile.id
        folder_id := encryptedFile.folderId
        metadata_iv := encryptedFile.metadata.iv
        metadata_ciphertext := encryptedFile.metadata.ciphertext
        content_iv := encryptedFile.content.iv
        content_ciphertext := encryptedFile.content.ciphertext
        content_wrapped_key := encryptedFile.content.wrappedKey
        content_key_iv := encryptedFile.content.keyIv
        size := encryptedFile.size
        mime_type := encryptedFile.mimeType
        created_at := encryptedFile.createdAt } with
  | .error _ => .error ()
  | .ok db' => .ok (db', encryptedFile)

/-! ## The access-session state machine (`workspace-context.tsx`) -/

/-- The value stored per unlocked folder: its key and decrypted name. -/
structure FolderEntry where
  key : Key
  name : String
deriving DecidableEq, Repr

/-- A JavaScript `Map` modelled as an insertion-ordered association list. -/
abbrev FolderMap := List (String × FolderEntry)

/-- The function `Map.prototype.set`: update in place when present, else append. -/
def mapSet (m : FolderMap) (k : String) (v : FolderEntry) : FolderMap :=
  if m.any (fun p => p.1 == k) then m.map (fun p => if p.1 == k then (k, v) else p)
  else m ++ [(k, v)]

/-- The function `Map.prototype.delete`. -/
def mapDelete (m : FolderMap) (k : String) : FolderMap :=
  m.filter (fun p => p.1 != k)

/-- The function `Map.prototype.has`. -/
def mapHas (m : FolderMap) (k : String) : Bool := m.any (fun p => p.1 == k)

/-- The function `Map.prototype.get` (as used through `?.key` / `?.name`). -/
def mapGet (m : FolderMap) (k : String) : Option FolderEntry :=
  (m.find? (fun p => p.1 == k)).map (·.2)

/-- The in-memory `WorkspaceSession` state of `workspace-context.tsx`. -/
structure WorkspaceSession where
  workspace : Option EncryptedWorkspace
  workspaceKey : Option Key
  workspaceName : Option String
  unlockedFolders : FolderMap
  currentFolderId : Option String
deriving DecidableEq, Repr

/-- The `SessionAction` union of `workspace-context.tsx`. -/
inductive SessionAction where
  | unlockWorkspace (workspace : EncryptedWorkspace) (key : Key) (name : String)
  | lockWorkspace
  | unlockFolder (folderId : String) (key : Key) (name : String)
  | lockFolder (folderId : String)
  | setCurrentFolder (folderId : Option String)
deriving DecidableEq, Repr

/-- The function `initialState` from `workspace-context.tsx`. -/
def initialState : WorkspaceSession :=
  { workspace := none
    workspaceKey := none
    workspaceName := none
    unlockedFolders := []
    currentFolderId := none }

/-- The function `sessionReducer` from `workspace-context.tsx` (lines 37-82). -/
def sessionReducer (state : WorkspaceSession) (action : SessionAction) : WorkspaceSession :=
  match action with
  | .unlockWorkspace w key name =>
    { state with
      workspace := some w
      workspaceKey := some key
      workspaceName := some name }
  | .lockWorkspace => initialState
  | .unlockFolder folderId key name =>
    { state with
      unlockedFolders := mapSet state.unlockedFolders folderId ⟨key, name⟩
      currentFolderId := some folderId }
  | .lockFolder folderId =>
    { state with
      unlockedFolders := mapDelete state.unlockedFolders folderId
      currentFolderId :=
        if state.currentFolderId = some folderId then none else state.currentFolderId }
  | .setCurrentFolder folderId => { state with currentFolderId := folderId }

/-- The function `isFolderUnlocked` from `workspace-context.tsx` (lines 100-102). -/
def isFolderUnlocked (session : WorkspaceSession) (folderId : String) : Bool :=
  mapHas session.unlockedFolders folderId

/-- The function `getFolderKey` from `workspace-context.tsx`. -/
def getFolderKey (session : WorkspaceSession) (folderId : String) : Option Key :=
  (mapGet session.unlockedFolders folderId).map (·.key)

/-- States reachable from `initialState` by dispatching any sequence of
session actions with arbitrary payloads. -/
inductive Reachable : WorkspaceSession → Prop where
  | init : Reachable initialState
  | step {s : WorkspaceSession} (a : SessionAction) :
      Reachable s → Reachable (sessionReducer s a)

/-- Guarded dispatch: `SET_CURRENT_FOLDER` only with `null` or an id
currently present in the unlocked mapping; other actions unrestricted. -/
def actionGuarded (s : WorkspaceSession) : SessionAction → Prop
  | .setCurrentFolder (some fid) => mapHas s.unlockedFolders fid = true
  | _ => True

/-- States reachable when every `SET_CURRENT_FOLDER` dispatch is guarded. -/
inductive ReachableGuarded : WorkspaceSession → Prop where
  | init : ReachableGuarded initialState
  | step {s : WorkspaceSession} (a : SessionAction) :
      ReachableGuarded s → actionGuarded s a → ReachableGuarded (sessionReducer s a)

/-! ## The brute-force throttle (`WelcomeScreen.tsx`, `PasswordInput.tsx`)

Both interactive unlock flows keep a `failedAttempts` counter in local
component state and run, per attempt:
`if (failedAttempts > 0) await artificialDelay(min(failedAttempts * 1000, 5000))`,
incrementing the counter only when the attempt fails.
-/

/-- The delay (ms) awaited before an unlock attempt when `failedAttempts`
failures have occurred so far in this flow (`handleUnlock`,
`WelcomeScreen.tsx` lines 87-97; `handleSubmit`, `PasswordInput.tsx`
lines 236-245): nothing before a first attempt, else
`min(failedAttempts * 1000, 5000)`. -/
def attemptDelay (failedAttempts : Nat) : Nat :=
  if failedAttempts > 0 then min (failedAttempts * 1000) 5000 else 0

/-- The counter update after an attempt:
`setFailedAttempts(prev => prev + 1)` on failure, unchanged on success. -/
def afterAttempt (failedAttempts : Nat) (success : Bool) : Nat :=
  if success then failedAttempts else failedAttempts + 1

/-- Abandoning and restarting a flow resets the counter
(`setFailedAttempts(0)` on Back; the dialog-close effect). -/
def restartFlow : Nat := 0

/-- The delays awaited before successive attempts of one flow with the
given outcomes, starting from `n` recorded failures. -/
def flowDelaysAux (n : Nat) : List Bool → List Nat
  | [] => []
  | outcome :: rest => attemptDelay n :: flowDelaysAux (afterAttempt n outcome) rest

/-- The delays awaited along a fresh interactive unlock flow. -/
def flowDelays (outcomes : List Bool) : List Nat := flowDelaysAux restartFlow outcomes

/-! ## The create-workspace flow (`WelcomeScreen.tsx`) -/

/-- The distinct outcomes of `handleCreate` (`WelcomeScreen.tsx`, lines
22-85): an input-validation toast, the "Workspace exists" conflict
toast, a successful creation, or a storage failure. -/
inductive CreateOutcome where
  | validationError
  | conflict
  | created (db : List WorkspaceRow) (workspace : EncryptedWorkspace) (key : Key)
  | storeError
deriving DecidableEq

/-- Modelled from the spec: the JavaScript `String.prototype.trim` used
by the `!workspaceName.trim()` validation — strip whitespace from both
ends. -/
def jsTrim (s : String) : String :=
  String.mk (((s.data.dropWhile Char.isWhitespace).reverse.dropWhile
    Char.isWhitespace).reverse)

/-- The function `handleCreate` from `WelcomeScreen.tsx`: the input validations, then
the `workspaceExists` pre-check (lines 51-60) — which computes only the
cheap double-hash identifier — and only then `createWorkspace`.  The
second component counts the PBKDF2 derivations performed:
`workspaceExists` runs none, `createWorkspace` runs exactly one
(`storage.ts` line 78). -/
def handleCreate (db : List WorkspaceRow) (workspaceName password confirmPassword : String)
    (saltEntropy ivEntropy : Bytes) (now : Nat) : CreateOutcome × Nat :=
  if jsTrim workspaceName = "" then (.validationError, 0)
  else if password ≠ confirmPassword then (.validationError, 0)
  else if !validatePasswordStrength password then (.validationError, 0)
  else if workspaceExists db password then (.conflict, 0)
  else
    match createWorkspace db password workspaceName saltEntropy ivEntropy now with
    | .error _ => (.storeError, 1)
    | .ok (db', w, k) => (.created db' w k, 1)

/-! ## Alternate storage module (`src/unnamed/part_003`) — `uploadFile`

The repository's second copy of the storage layer; its `uploadFile`
(lines 208-241) validates a 50 MiB size cap, stores
`file.type || 'application/octet-stream'` in the row, but returns a
record whose `mimeType` is the raw `file.type`. -/

/-- The function `uploadFile` from `src/unnamed/part_003` (lines 208-241). -/
def uploadFileAlt (db : List FileRow) (folderId : String) (folderKey : Key) (file : JsFile)
    (idEntropy : String) (metaIvEntropy keyEntropy ivEntropy keyIvEntropy : Bytes)
    (now : Nat) : Except Unit (List FileRow × EncryptedFile) :=
  if file.size > 50 * 1024 * 1024 then .error ()
  else
    let metadata := encryptString file.name folderKey metaIvEntropy
    let content := encryptFile file.data folderKey keyEntropy ivEntropy keyIvEntropy
    match insertFileRow db
        { id := idEntropy
          folder_id := folderId
          metadata_iv := metadata.iv
          metadata_ciphertext := metadata.ciphertext
          content_iv := content.iv
          content_ciphertext := content.ciphertext
          content_wrapped_key := content.wrappedKey
          content_key_iv := content.keyIv
          size := file.size
          mime_type := if file.type = "" then "application/octet-stream" else file.type
          created_at := now } with
    | .error _ => .error ()
    | .ok db' =>
      .ok (db',
        { id := idEntropy
          folderId := folderId
          metadata := metadata
          content := content
          size := file.size
          mimeType := file.type
          createdAt := now })

/-! ## Claim theorems -/

/-- C2: after the `LOCK_WORKSPACE` transition is applied to any session
state, the resulting state holds no workspace, no workspace key, no
workspace name, an empty unlocked-folder mapping and a null
active-folder pointer; in particular `isFolderUnlocked f` is false for
every folder id `f`. -/
theorem C2_lockWorkspace_full_wipe (s : WorkspaceSession) :
    sessionReducer s .lockWorkspace = initialState
    ∧ (sessionReducer s .lockWorkspace).workspace = none
    ∧ (sessionReducer s .lockWorkspace).workspaceKey = none
    ∧ (sessionReducer s .lockWorkspace).workspaceName = none
    ∧ (sessionReducer s .lockWorkspace).unlockedFolders = []
    ∧ (sessionReducer s .lockWorkspace).currentFolderId = none
    ∧ ∀ fid : String, isFolderUnlocked (sessionReducer s .lockWorkspace) fid = false :=
  ⟨rfl, rfl, rfl, rfl, rfl, rfl, fun _ => rfl⟩

/-- C4: for every plaintext byte sequence `p` (including the empty one)
and every AES-GCM key `k`, if `encrypt p k` produces `{iv, ciphertext}`
then `decrypt ciphertext k iv` returns exactly `p`, for any IV drawn by
`generateIV()`. -/
theorem C4_encrypt_decrypt_roundtrip (p : Bytes) (k : Key) (ivEntropy : Bytes) :
    decrypt (encrypt p k ivEntropy).ciphertext k (encrypt p k ivEntropy).iv = some p :=
  subtleDecrypt_subtleEncrypt p k ivEntropy

/-- C5 counterexample: applying `UNLOCK_WORKSPACE` to a state with an
unlocked folder does not empty the unlocked-folder mapping — the reducer
spreads `...state` and never touches `unlockedFolders`, so the stale
folder remains unlocked after the transition. -/
theorem C5_counterexample :
    (sessionReducer
        { workspace := none
          workspaceKey := none
          workspaceName := none
          unlockedFolders := [("f1", ⟨Key.random [], "Photos"⟩)]
          currentFolderId := some "f1" }
        (.unlockWorkspace ⟨"id", "salt", ⟨"iv", "ct"⟩, 0⟩ (Key.random []) "Vault")).unlockedFolders
      = [("f1", ⟨Key.random [], "Photos"⟩)]
    ∧ isFolderUnlocked
        (sessionReducer
          { workspace := none
            workspaceKey := none
            workspaceName := none
            unlockedFolders := [("f1", ⟨Key.random [], "Photos"⟩)]
            currentFolderId := some "f1" }
          (.unlockWorkspace ⟨"id", "salt", ⟨"iv", "ct"⟩, 0⟩ (Key.random []) "Vault")) "f1"
        = true :=
  ⟨rfl, rfl⟩

/-- C5 (amended): the `UNLOCK_WORKSPACE` transition sets the workspace,
its key and its name, but leaves the unlocked-folder mapping and the
active-folder pointer exactly as they were — it does not clear stale
folder-unlock state. -/
theorem C5_unlockWorkspace_preserves_folders (s : WorkspaceSession)
    (w : EncryptedWorkspace) (k : Key) (n : String) :
    (sessionReducer s (.unlockWorkspace w k n)).workspace = some w
    ∧ (sessionReducer s (.unlockWorkspace w k n)).workspaceKey = some k
    ∧ (sessionReducer s (.unlockWorkspace w k n)).workspaceName = some n
    ∧ (sessionReducer s (.unlockWorkspace w k n)).unlockedFolders = s.unlockedFolders
    ∧ (sessionReducer s (.unlockWorkspace w k n)).currentFolderId = s.currentFolderId :=
  ⟨rfl, rfl, rfl, rfl, rfl⟩

/-- C3: encrypting file bytes with `encryptFile` (fresh random file key,
wrapped under the folder key) and a filename with `encryptString`, then
decrypting the produced fields with `decryptFile` / `decryptString`
under the same folder key, returns exactly the original bytes and
filename. -/
theorem C3_file_and_name_roundtrip (b : Bytes) (k : Key) (s : String)
    (keyEntropy ivEntropy keyIvEntropy metaIvEntropy : Bytes)
    (hb : ∀ x ∈ b, x < 256)
    (hiv : ∀ x ∈ ivEntropy, x < 256)
    (hkiv : ∀ x ∈ keyIvEntropy, x < 256)
    (hmiv : ∀ x ∈ metaIvEntropy, x < 256) :
    decryptFile (encryptFile b k keyEntropy ivEntropy keyIvEntropy).ciphertext
        (encryptFile b k keyEntropy ivEntropy keyIvEntropy).iv
        (encryptFile b k keyEntropy ivEntropy keyIvEntropy).wrappedKey
        (encryptFile b k keyEntropy ivEntropy keyIvEntropy).keyIv k = some b
    ∧ decryptString (encryptString s k metaIvEntropy).ciphertext k
        (encryptString s k metaIvEntropy).iv = some s := by
  constructor
  · unfold encryptFile decryptFile
    dsimp only
    rw [show bytesToBase64 (encrypt b (generateFileKey keyEntropy) ivEntropy).ciphertext
          = bytesToBase64 (subtleEncrypt b (generateFileKey keyEntropy) ivEntropy) from rfl,
        show bytesToBase64 (encrypt b (generateFileKey keyEntropy) ivEntropy).iv
          = bytesToBase64 ivEntropy from rfl]
    rw [unwrapKey_wrapKey keyEntropy k keyIvEntropy hkiv]
    show decrypt _ _ _ = _
    unfold decrypt
    rw [base64_roundtrip _ (subtleEncrypt_lt b hb _ _), base64_roundtrip _ hiv]
    exact subtleDecrypt_subtleEncrypt b _ ivEntropy
  · exact decryptString_encryptString s k metaIvEntropy hmiv

/-- C3 witness: the ten-byte file named `"a.txt"`, uploaded under a
folder key derived from the folder password `"f0lder!Pass1"`, decrypts
back to the original ten bytes and the original filename. -/
theorem C3_file_and_name_roundtrip_witness :
    decryptFile
        (encryptFile [1, 2, 3, 4, 5, 6, 7, 8, 9, 10]
          (deriveKeyFromPassword "f0lder!Pass1" [5, 6]) [9, 9] [3, 1] [4, 1]).ciphertext
        (encryptFile [1, 2, 3, 4, 5, 6, 7, 8, 9, 10]
          (deriveKeyFromPassword "f0lder!Pass1" [5, 6]) [9, 9] [3, 1] [4, 1]).iv
        (encryptFile [1, 2, 3, 4, 5, 6, 7, 8, 9, 10]
          (deriveKeyFromPassword "f0lder!Pass1" [5, 6]) [9, 9] [3, 1] [4, 1]).wrappedKey
        (encryptFile [1, 2, 3, 4, 5, 6, 7, 8, 9, 10]
          (deriveKeyFromPassword "f0lder!Pass1" [5, 6]) [9, 9] [3, 1] [4, 1]).keyIv
        (deriveKeyFromPassword "f0lder!Pass1" [5, 6]) = some [1, 2, 3, 4, 5, 6, 7, 8, 9, 10]
    ∧ decryptString
        (encryptString "a.txt" (deriveKeyFromPassword "f0lder!Pass1" [5, 6]) [7, 2]).ciphertext
        (deriveKeyFromPassword "f0lder!Pass1" [5, 6])
        (encryptString "a.txt" (deriveKeyFromPassword "f0lder!Pass1" [5, 6]) [7, 2]).iv
      = some "a.txt" :=
  C3_file_and_name_roundtrip [1, 2, 3, 4, 5, 6, 7, 8, 9, 10]
    (deriveKeyFromPassword "f0lder!Pass1" [5, 6]) "a.txt" [9, 9] [3, 1] [4, 1] [7, 2]
    (by decide) (by decide) (by decide) (by decide)

/-! ### Association-list map lemmas for the session invariant -/

theorem mapHas_mapSet_self (m : FolderMap) (k : String) (v : FolderEntry) :
    mapHas (mapSet m k v) k = true := by
  unfold mapHas mapSet
  by_cases h : m.any (fun p => p.1 == k) = true
  · rw [if_pos h, List.any_map]
    have hpt : (fun p : String × FolderEntry => ((if p.1 == k then (k, v) else p).1 == k))
        = (fun p : String × FolderEntry => p.1 == k) := by
      funext p
      by_cases hp : (p.1 == k) = true
      · simp [hp]
      · simp [hp]
    simp only [Function.comp_def]
    rw [hpt]
    exact h
  · rw [if_neg h, List.any_append]
    simp

theorem mapHas_mapDelete_ne (m : FolderMap) (k k' : String) (h : k' ≠ k) :
    mapHas (mapDelete m k) k' = mapHas m k' := by
  induction m with
  | nil => rfl
  | cons p m ih =>
    unfold mapHas mapDelete at ih ⊢
    by_cases hp : p.1 = k
    · have hne : (p.1 == k') = false := by
        rw [beq_eq_false_iff_ne, hp]
        exact fun hk => h hk.symm
      have hbne : (p.1 != k) = false := by
        simp [hp]
      simp only [List.filter_cons, hbne, Bool.false_eq_true, if_false, List.any_cons, hne,
        Bool.false_or]
      exact ih
    · have hbne : (p.1 != k) = true := by
        rw [bne_iff_ne]
        exact hp
      simp only [List.filter_cons, hbne, if_true, List.any_cons]
      rw [ih]

/-- C6 counterexample: `SET_CURRENT_FOLDER` carries an arbitrary payload
with no membership check, so one dispatch from the initial state reaches
a state whose active-folder pointer names a folder absent from the
unlocked mapping — the claimed invariant fails on a reachable state. -/
theorem C6_counterexample :
    Reachable (sessionReducer initialState (.setCurrentFolder (some "x")))
    ∧ (sessionReducer initialState (.setCurrentFolder (some "x"))).currentFolderId = some "x"
    ∧ mapHas (sessionReducer initialState (.setCurrentFolder (some "x"))).unlockedFolders "x"
        = false :=
  ⟨Reachable.step _ Reachable.init, rfl, rfl⟩

/-- C6 (amended): the invariant — a non-null active-folder pointer
always references a folder present in the unlocked mapping — holds in
every state reachable from the initial state when each
`SET_CURRENT_FOLDER` dispatch carries `null` or a currently-unlocked
folder id; the four other actions may carry arbitrary payloads.  (With a
fully arbitrary `SET_CURRENT_FOLDER` payload the invariant fails.) -/
theorem C6_active_folder_invariant (s : WorkspaceSession) (h : ReachableGuarded s) :
    ∀ fid : String, s.currentFolderId = some fid → mapHas s.unlockedFolders fid = true := by
  induction h with
  | init =>
    intro fid hf
    simp only [initialState] at hf
    cases hf
  | @step s a _ hg ih =>
    cases a with
    | unlockWorkspace w k n => exact ih
    | lockWorkspace =>
      intro fid hf
      simp only [sessionReducer, initialState] at hf
      cases hf
    | unlockFolder fid' k n =>
      intro fid hf
      simp only [sessionReducer] at hf ⊢
      cases hf
      exact mapHas_mapSet_self _ _ _
    | lockFolder fid' =>
      intro fid hf
      simp only [sessionReducer] at hf ⊢
      by_cases hc : s.currentFolderId = some fid'
      · rw [if_pos hc] at hf
        cases hf
      · rw [if_neg hc] at hf
        have hne : fid ≠ fid' := by
          intro heq
          exact hc (heq ▸ hf)
        rw [mapHas_mapDelete_ne _ _ _ hne]
        exact ih fid hf
    | setCurrentFolder payload =>
      intro fid hf
      simp only [sessionReducer] at hf ⊢
      cases hf
      exact hg

/-- C6 witness: after a guarded `UNLOCK_FOLDER "f1"` dispatch from the
initial state, the active folder `"f1"` is indeed in the unlocked
mapping. -/
theorem C6_active_folder_invariant_witness :
    mapHas (sessionReducer initialState
        (.unlockFolder "f1" (Key.random []) "Photos")).unlockedFolders "f1" = true :=
  C6_active_folder_invariant _
    (ReachableGuarded.step (.unlockFolder "f1" (Key.random []) "Photos")
      ReachableGuarded.init trivial) "f1" rfl

/-- C1 (amended): in `storage.ts`, `unlockWorkspace` and `unlockFolder`
return `null` both when no row exists for the identifier and when a row
exists but authenticated decryption of its metadata fails, so a caller
of these cannot tell which reason caused the failure.  In the alternate
storage module (`part_003`), only the missing-row case of
`unlockWorkspace` yields `null`; a decryption failure propagates as a
thrown exception, which a direct caller can distinguish. -/
theorem C1_unlock_failure_normalization
    (db : List WorkspaceRow) (fdb : List FolderRow) (pw fid : String) (row : WorkspaceRow)
    (frow : FolderRow) :
    (findWorkspaceRow db (createWorkspaceId pw) = none → unlockWorkspace db pw = none)
    ∧ (findWorkspaceRow db (createWorkspaceId pw) = some row →
        decryptString row.metadata_ciphertext
          (deriveKeyFromPassword pw (base64ToBytes row.salt)) row.metadata_iv = none →
        unlockWorkspace db pw = none)
    ∧ (findFolderRow fdb fid = none → unlockFolder fdb fid pw = none)
    ∧ (findFolderRow fdb fid = some frow →
        decryptString frow.metadata_ciphertext
          (deriveKeyFromPassword pw (base64ToBytes frow.salt)) frow.metadata_iv = none →
        unlockFolder fdb fid pw = none)
    ∧ (findWorkspaceRow db (createWorkspaceId pw) = none →
        unlockWorkspaceAlt db pw = .ok none)
    ∧ (findWorkspaceRow db (createWorkspaceId pw) = some row →
        decryptString row.metadata_ciphertext
          (deriveKeyFromPassword pw (base64ToBytes row.salt)) row.metadata_iv = none →
        unlockWorkspaceAlt db pw = .error ()) := by
  refine ⟨?_, ?_, ?_, ?_, ?_, ?_⟩
  · intro h
    unfold unlockWorkspace
    rw [h]
  · intro h hd
    unfold unlockWorkspace
    rw [h]
    dsimp only
    rw [hd]
  · intro h
    unfold unlockFolder
    rw [h]
  · intro h hd
    unfold unlockFolder
    rw [h]
    dsimp only
    rw [hd]
  · intro h
    unfold unlockWorkspaceAlt
    rw [h]
  · intro h hd
    unfold unlockWorkspaceAlt
    rw [h]
    dsimp only
    rw [hd]

/-- C1 counterexample: a workspace row exists for the password `"pw"`
(its id is the derived identifier) but its metadata does not decrypt
(empty ciphertext); the alternate module's `unlockWorkspace` then yields
a thrown exception, not the single `null` failure outcome the claim
asserts for every unlock operation. -/
theorem C1_counterexample :
    (findWorkspaceRow
        [{ id := createWorkspaceId "pw"
           salt := bytesToBase64 [1, 2]
           metadata_iv := bytesToBase64 [3, 4]
           metadata_ciphertext := ""
           created_at := 0 }] (createWorkspaceId "pw")).isSome = true
    ∧ unlockWorkspaceAlt
        [{ id := createWorkspaceId "pw"
           salt := bytesToBase64 [1, 2]
           metadata_iv := bytesToBase64 [3, 4]
           metadata_ciphertext := ""
           created_at := 0 }] "pw" = .error () := by
  constructor
  · rfl
  · rfl

/-- C1 witness: on the empty store the unlock operations return `null`,
and on a store whose only row fails decryption `unlockWorkspace`
(`storage.ts`) also returns `null`. -/
theorem C1_unlock_failure_normalization_witness :
    unlockWorkspace [] "pw" = none
    ∧ unlockWorkspace
        [{ id := createWorkspaceId "pw"
           salt := bytesToBase64 [1, 2]
           metadata_iv := bytesToBase64 [3, 4]
           metadata_ciphertext := ""
           created_at := 0 }] "pw" = none
    ∧ unlockFolder [] "f1" "pw" = none :=
  ⟨(C1_unlock_failure_normalization [] [] "pw" "f1"
      ⟨"", "", "", "", 0⟩ ⟨"", "", "", "", "", 0⟩).1 rfl,
   (C1_unlock_failure_normalization
      [{ id := createWorkspaceId "pw"
         salt := bytesToBase64 [1, 2]
         metadata_iv := bytesToBase64 [3, 4]
         metadata_ciphertext := ""
         created_at := 0 }] [] "pw" "f1"
      { id := createWorkspaceId "pw"
        salt := bytesToBase64 [1, 2]
        metadata_iv := bytesToBase64 [3, 4]
        metadata_ciphertext := ""
        created_at := 0 } ⟨"", "", "", "", "", 0⟩).2.1 rfl rfl,
   (C1_unlock_failure_normalization [] [] "pw" "f1"
      ⟨"", "", "", "", 0⟩ ⟨"", "", "", "", "", 0⟩).2.2.1 rfl⟩

/-- C8: creating a workspace for a password whose derived identifier
already has a row yields the conflict outcome ("workspace already
exists"), and the existence pre-check runs before the expensive PBKDF2
derivation — the flow performs zero key derivations in that case. -/
theorem C8_conflict_checked_before_derivation
    (db : List WorkspaceRow) (name pw confirm : String)
    (saltEntropy ivEntropy : Bytes) (now : Nat)
    (hname : ¬ jsTrim name = "")
    (hmatch : pw = confirm)
    (hstrong : validatePasswordStrength pw = true)
    (hexists : workspaceExists db pw = true) :
    handleCreate db name pw confirm saltEntropy ivEntropy now = (.conflict, 0) := by
  unfold handleCreate
  rw [if_neg hname, if_neg (by simp [hmatch]), if_neg (by simp [hstrong]), if_pos hexists]

/-- C8 witness: a store already holding the workspace row for
`"Correct#Horse99battery"` makes the create flow stop at the conflict
outcome with zero PBKDF2 derivations. -/
theorem C8_conflict_checked_before_derivation_witness :
    handleCreate
      [{ id := createWorkspaceId "Correct#Horse99battery"
         salt := ""
         metadata_iv := ""
         metadata_ciphertext := ""
         created_at := 0 }]
      "Vault" "Correct#Horse99battery" "Correct#Horse99battery" [] [] 0 = (.conflict, 0) :=
  C8_conflict_checked_before_derivation _ "Vault" _ _ [] [] 0
    (by decide) rfl (by decide) (by decide)

/-! ### Throttle lemmas -/

theorem attemptDelay_eq_min (k : Nat) : attemptDelay k = min (k * 1000) 5000 := by
  unfold attemptDelay
  by_cases h : k > 0
  · rw [if_pos h]
  · rw [if_neg h]
    have hz : k = 0 := by omega
    subst hz
    simp

theorem flowDelaysAux_getElem_replicate (k : Nat) (rest : List Bool) (hrest : rest ≠ []) :
    ∀ n : Nat, (flowDelaysAux n (List.replicate k false ++ rest))[k]?
      = some (attemptDelay (n + k)) := by
  induction k with
  | zero =>
    intro n
    cases rest with
    | nil => exact absurd rfl hrest
    | cons o r =>
      show (flowDelaysAux n (o :: r))[0]? = some (attemptDelay (n + 0))
      unfold flowDelaysAux
      rw [List.getElem?_cons_zero, Nat.add_zero]
  | succ k ih =>
    intro n
    show (flowDelaysAux n (false :: (List.replicate k false ++ rest)))[k + 1]? = _
    unfold flowDelaysAux
    rw [List.getElem?_cons_succ]
    have ha : afterAttempt n false = n + 1 := rfl
    rw [ha, ih (n + 1)]
    have hn : n + 1 + k = n + (k + 1) := by omega
    rw [hn]

/-- C9: in each interactive unlock flow no delay is awaited before the
first attempt; before the attempt following `k` failed attempts the
awaited delay is exactly `min (k * 1000) 5000` milliseconds; and an
abandoned-and-restarted flow starts from a zero failure counter. -/
theorem C9_throttle_schedule (outs : List Bool) (houts : outs ≠ [])
    (k : Nat) (rest : List Bool) (hrest : rest ≠ []) :
    (flowDelays outs)[0]? = some 0
    ∧ (flowDelays (List.replicate k false ++ rest))[k]? = some (min (k * 1000) 5000)
    ∧ restartFlow = 0 := by
  refine ⟨?_, ?_, rfl⟩
  · cases outs with
    | nil => exact absurd rfl houts
    | cons o r =>
      show (flowDelaysAux 0 (o :: r))[0]? = some 0
      unfold flowDelaysAux
      rw [List.getElem?_cons_zero]
      rfl
  · have h := flowDelaysAux_getElem_replicate k rest hrest 0
    rw [Nat.zero_add, attemptDelay_eq_min] at h
    exact h

/-- C9 witness: the first attempt of a flow is not delayed, and after
three failures the next attempt waits exactly 3000 ms. -/
theorem C9_throttle_schedule_witness :
    (flowDelays [true])[0]? = some 0
    ∧ (flowDelays (List.replicate 3 false ++ [true]))[3]? = some (min (3 * 1000) 5000)
    ∧ restartFlow = 0 :=
  C9_throttle_schedule [true] (by decide) 3 [true] (by decide)

/-- C10: `uploadFile` stores `'application/octet-stream'` as the MIME
type when the browser-reported type is the empty string and the reported
type unchanged otherwise — in the returned record and in the inserted
row, and likewise in the row inserted by the alternate module's
`uploadFile`. -/
theorem C10_uploadFile_mimeType
    (db : List FileRow) (folderId : String) (folderKey : Key) (file : JsFile)
    (idEntropy : String) (metaIvE keyE ivE keyIvE : Bytes) (now : Nat)
    (hfree : db.any (fun r => r.id == idEntropy) = false)
    (hsize : ¬ file.size > 50 * 1024 * 1024) :
    (uploadFile db folderId folderKey file idEntropy metaIvE keyE ivE keyIvE now).toOption.map
        (fun p => (p.2.mimeType, p.1.map (fun r => r.mime_type)))
      = some (if file.type = "" then "application/octet-stream" else file.type,
          db.map (fun r => r.mime_type)
            ++ [if file.type = "" then "application/octet-stream" else file.type])
    ∧ (uploadFileAlt db folderId folderKey file idEntropy metaIvE keyE ivE
          keyIvE now).toOption.map (fun p => p.1.map (fun r => r.mime_type))
      = some (db.map (fun r => r.mime_type)
          ++ [if file.type = "" then "application/octet-stream" else file.type]) := by
  constructor
  · unfold uploadFile insertFileRow
    dsimp only
    rw [if_neg (by simp [hfree])]
    simp [Except.toOption, List.map_append]
  · unfold uploadFileAlt insertFileRow
    rw [if_neg hsize]
    dsimp only
    rw [if_neg (by simp [hfree])]
    simp [Except.toOption, List.map_append]

/-- C10 witness: uploading a file whose browser-reported type is the
empty string stores `'application/octet-stream'`. -/
theorem C10_uploadFile_mimeType_witness :
    (uploadFile [] "f1" (Key.random []) ⟨"a.txt", [1, 2, 3], 3, ""⟩
        "id1" [] [] [] [] 0).toOption.map
        (fun p => (p.2.mimeType, p.1.map (fun r => r.mime_type)))
      = some (if "" = "" then "application/octet-stream" else "",
          ([] : List FileRow).map (fun r => r.mime_type)
            ++ [if "" = "" then "application/octet-stream" else ""])
    ∧ (uploadFileAlt [] "f1" (Key.random []) ⟨"a.txt", [1, 2, 3], 3, ""⟩
          "id1" [] [] [] [] 0).toOption.map (fun p => p.1.map (fun r => r.mime_type))
      = some (([] : List FileRow).map (fun r => r.mime_type)
          ++ [if "" = "" then "application/octet-stream" else ""]) :=
  C10_uploadFile_mimeType [] "f1" (Key.random []) ⟨"a.txt", [1, 2, 3], 3, ""⟩
    "id1" [] [] [] [] 0 (by decide) (by decide)

/-- C7: `createWorkspaceId p` equals the base64 encoding of
`SHA-256 (SHA-256 (UTF-8 p))` — a double hash with no salt and no
iteration count; it is deterministic, and the distinct sampled passwords
of the test corpus yield pairwise distinct identifiers. -/
theorem C7_createWorkspaceId_double_hash :
    (∀ p : String,
      createWorkspaceId p = bytesToBase64 (sha256Hash (sha256Hash (stringToBytes p))))
    ∧ (∀ p : String, createWorkspaceId p = createWorkspaceId p)
    ∧ createWorkspaceId "Correct#Horse99battery" ≠ createWorkspaceId "wrong"
    ∧ createWorkspaceId "Correct#Horse99battery" ≠ createWorkspaceId "f0lder!Pass1"
    ∧ createWorkspaceId "wrong" ≠ createWorkspaceId "f0lder!Pass1" := by
  refine ⟨fun p => rfl, fun p => rfl, ?_, ?_, ?_⟩ <;> decide

end Lockspace
